import Mathlib

/-!
Shallow embedding of the Mickey-Hackies CPU-monitor backend
(`src/backend/cpu_server.py`, `src/backend/test_workloads.py`) and proofs of
the spec's claims about it.

Modelling conventions:
* Python floats are modelled by `ℚ`; `round(x, 1)` is modelled by rounding
  `10*x` to the nearest integer and dividing by `10` (the tie-breaking rule
  plays no role in any claim).
* A fallible OS read (`psutil.cpu_percent(interval=None)`) is modelled by an
  `Option ℚ` argument: `some r` is a successful raw reading `r`, `none` is a
  read that raises.
* The module-level set `connected_websockets` is modelled by a `List` of
  subscriber handles with set-like `add`/`discard` operations.
-/

namespace CpuServer

/-- State of the `CPUMonitor` class: the stored smoothed value
`self.current_cpu` (initially `0.0`), the smoothing window
`self.cpu_history` (initially empty) and `self.buffer_size` (`10`). -/
structure CPUMonitor where
  current_cpu : ℚ
  cpu_history : List ℚ
  buffer_size : ℕ
  deriving DecidableEq, Repr

/-- The freshly constructed monitor (`CPUMonitor.__init__`): smoothed value
`0.0`, empty history, buffer size `10`.  The priming call
`psutil.cpu_percent(interval=0.1)` has no effect on this state. -/
def CPUMonitor.init : CPUMonitor :=
  { current_cpu := 0, cpu_history := [], buffer_size := 10 }

/-- The weight list built in `get_cpu_percent`:
`weights = [1 + (i / self.buffer_size) for i in range(len(self.cpu_history))]`. -/
def weightList (bufferSize : ℕ) (len : ℕ) : List ℚ :=
  (List.range len).map (fun (i : ℕ) => 1 + (i : ℚ) / (bufferSize : ℚ))

/-- Model of Python's `round(x, 1)`: round to one decimal place. -/
def roundTo1 (x : ℚ) : ℚ :=
  ((round (10 * x) : ℤ) : ℚ) / 10

/-- One call of `CPUMonitor.get_cpu_percent`.  `reading` is the outcome of
`psutil.cpu_percent(interval=None)`: on `some cpu_percent` the body appends
the reading, pops the oldest entry if the window exceeds `buffer_size`,
computes the weighted moving average, clamps it to `[0, 100]` and stores it;
on `none` (the read raises) the `except` branch swallows the error and the
method returns `round(self.current_cpu, 1)` with the state untouched.
Returns the updated monitor together with the returned value. -/
def get_cpu_percent (m : CPUMonitor) (reading : Option ℚ) : CPUMonitor × ℚ :=
  match reading with
  | none => (m, roundTo1 m.current_cpu)
  | some cpu_percent =>
    let hist1 := m.cpu_history ++ [cpu_percent]
    let hist2 := if m.buffer_size < hist1.length then hist1.tail else hist1
    let ws := weightList m.buffer_size hist2.length
    let weighted_sum := ((hist2.zip ws).map (fun p => p.1 * p.2)).sum
    let avg := weighted_sum / ws.sum
    let clamped := max 0 (min 100 avg)
    ({ m with cpu_history := hist2, current_cpu := clamped }, roundTo1 clamped)

/-- Outputs of a sequence of `get_cpu_percent` calls starting from monitor
state `m`, one list entry per call (readings may be failures). -/
def runOutputs (m : CPUMonitor) : List (Option ℚ) → List ℚ
  | [] => []
  | r :: rs =>
    let p := get_cpu_percent m r
    p.2 :: runOutputs p.1 rs

/-- The spec's window update (§4.1 step 1): append the raw reading to the
SmoothingWindow, evicting the oldest entry if the window is at capacity `K`. -/
def specWindowUpdate (w : List ℚ) (r : ℚ) (K : ℕ) : List ℚ :=
  if w.length = K then w.tail ++ [r] else w ++ [r]

/-- The spec's weighted moving average (§4.1 step 2): the i-th (0-indexed,
oldest = 0) entry of a window of length L has weight `1 + i/K`; the smoothed
value is `Σ(reading·weight) / Σ(weight)`. -/
def specWMA (w : List ℚ) (K : ℕ) : ℚ :=
  (∑ i ∈ Finset.range w.length, w.getD i 0 * (1 + (i : ℚ) / (K : ℚ))) /
    (∑ i ∈ Finset.range w.length, (1 + (i : ℚ) / (K : ℚ)))

/-- One connected websocket client as `broadcast_event` sees it: an opaque
handle (`id`), whether `ws.closed` currently holds, and whether
`ws.send_json` would succeed on it (`sendOk = false` means the send raises). -/
structure Subscriber where
  id : ℕ
  closed : Bool
  sendOk : Bool
  deriving DecidableEq, Repr

/-- Model of `set.add` on `connected_websockets` (idempotent per handle). -/
def ws_add (regs : List Subscriber) (ws : Subscriber) : List Subscriber :=
  if ws ∈ regs then regs else ws :: regs

/-- Model of `set.discard` on `connected_websockets` (no-op when absent). -/
def ws_discard (regs : List Subscriber) (ws : Subscriber) : List Subscriber :=
  regs.filter (fun w => decide (w ≠ ws))

/-- The `for ws in clients` loop inside `broadcast_event`: for each snapshot
entry, if `ws.closed` holds nothing happens; otherwise `send_json` is
attempted — on success the event is delivered to `ws`, on failure the
exception is caught, `ws` is discarded from the live set, and the loop
continues with the remaining clients.  Returns the final live set together
with the list of subscribers that received the event. -/
def broadcastLoop (regs : List Subscriber) :
    List Subscriber → List Subscriber × List Subscriber
  | [] => (regs, [])
  | ws :: rest =>
    if ws.closed then broadcastLoop regs rest
    else if ws.sendOk then
      let p := broadcastLoop regs rest
      (p.1, ws :: p.2)
    else broadcastLoop (ws_discard regs ws) rest

/-- Model of `broadcast_event`: snapshot the registered set (`clients = list(...)`),
return early if the snapshot is empty, otherwise run the delivery loop over
the snapshot.  Total: no exception ever escapes to the caller. -/
def broadcast_event (regs : List Subscriber) : List Subscriber × List Subscriber :=
  let clients := regs
  if clients.isEmpty then (regs, [])
  else broadcastLoop regs clients

/-- Environment of one iteration of the `while not ws.closed` loop in
`cpu_websocket_handler`: whether `ws.closed` is observed at the loop head,
the outcome of the sampler's own OS read inside `get_cpu_percent`
(`mainRead`), and whether the per-core read, the memory read and the
`ws.send_json` push each succeed (`false` means the call raises). -/
structure TickEnv where
  closedAtTop : Bool
  mainRead : Option ℚ
  perCpuOk : Bool
  memOk : Bool
  pushOk : Bool
  deriving DecidableEq, Repr

/-- How the streaming loop of `cpu_websocket_handler` ended. -/
inductive ExitReason where
  /-- The `while not ws.closed` guard observed a closed connection. -/
  | observedClosed
  /-- An exception in the loop body (per-core read, memory read or push)
  was caught by the inner `except`, which breaks out of the loop. -/
  | tickError
  /-- The supplied finite environment trace was exhausted with the loop
  still running. -/
  | ranOut
  deriving DecidableEq, Repr

/-- The `while not ws.closed` loop of `cpu_websocket_handler`, run against a
finite trace of per-tick environments.  Each iteration first checks the
guard; then `cpu_monitor.get_cpu_percent()` runs (it never raises — its own
read failures are swallowed internally); then the per-core read, the memory
read and the push each may raise, in which case the inner `except` catches
the exception and breaks the loop.  Returns the final monitor state and the
reason the loop ended. -/
def runSession (m : CPUMonitor) : List TickEnv → CPUMonitor × ExitReason
  | [] => (m, ExitReason.ranOut)
  | e :: rest =>
    if e.closedAtTop then (m, ExitReason.observedClosed)
    else
      let m' := (get_cpu_percent m e.mainRead).1
      if e.perCpuOk && e.memOk && e.pushOk then runSession m' rest
      else (m', ExitReason.tickError)

/-- The whole of `cpu_websocket_handler` for one connection `ws`: register
the handle in `connected_websockets`, run the streaming loop, and in the
`finally` block discard the handle (the single unregister site, reached on
every exit path).  Returns the final registry, monitor and exit reason. -/
def cpu_websocket_handler (regs : List Subscriber) (ws : Subscriber)
    (m : CPUMonitor) (envs : List TickEnv) :
    List Subscriber × CPUMonitor × ExitReason :=
  let regs1 := ws_add regs ws
  let p := runSession m envs
  (ws_discard regs1 ws, p.1, p.2)

/-- Responses of the workload HTTP handlers: `json_response({status: ...})`,
`json_response({error: ...}, status=400)` or
`json_response({error: ...}, status=500)`. -/
inductive Response where
  | ok (status : String)
  | clientError (error : String)
  | serverError (error : String)
  deriving DecidableEq, Repr

/-- Process-wide workload state: the module-level `workload_active` flag,
the number of background threads spawned so far, and the events broadcast
so far (one entry per note-start event, by note index). -/
structure ServerState where
  workload_active : Bool
  spawned : ℕ
  events : List ℕ
  deriving DecidableEq, Repr

/-- Modelled from the spec: `test_workloads.play_twinkle_twinkle` is called
by `start_workload_handler` but is absent from `test_workloads.py` (the
repository ships no definition of it).  Per §4.4 of the spec, the
sequenced-notes workload is self-terminating: it runs a bounded number of
steps (`notes`), emits one event per step, and resets the process-wide
active flag to `false` on natural completion. -/
def play_twinkle_twinkle (notes : List ℕ) (s : ServerState) : ServerState :=
  { s with events := s.events ++ notes, workload_active := false }

/-- The conflict message of `start_workload_handler`. -/
def conflictMsg : String :=
  "Workload already running"

/-- The success message of `start_workload_handler`. -/
def startedMsg : String :=
  "Twinkle Twinkle started"

/-- Model of `start_workload_handler`: if `workload_active` holds, return the
400 conflict response without touching any state; otherwise set the flag,
spawn the background thread and return the 200 status response.  The
`except` branch of the source (reset flag, 500 response) is unreachable
here because the workload body is modelled as present (see
`play_twinkle_twinkle`), so the import and attribute lookups it guards
succeed. -/
def start_workload_handler (s : ServerState) : ServerState × Response :=
  if s.workload_active then
    (s, Response.clientError conflictMsg)
  else
    ({ s with workload_active := true, spawned := s.spawned + 1 },
      Response.ok startedMsg)

/-- Model of `workload_status_handler`: returns the `active` field of the
response `json_response` builds from `workload_active`. -/
def workload_status_handler (s : ServerState) : Bool :=
  s.workload_active

section SamplerLemmas

/-- Sum of a mapped range as a `Finset.range` sum. -/
lemma sum_map_range (n : ℕ) (f : ℕ → ℚ) :
    ((List.range n).map f).sum = ∑ i ∈ Finset.range n, f i := by
  induction n with
  | zero => simp
  | succ n ih =>
    rw [List.range_succ, List.map_append, List.sum_append, Finset.sum_range_succ, ih]
    simp

/-- The zipped weighted sum of `get_cpu_percent` as an indexed sum. -/
lemma zip_weight_sum (l : List ℚ) (f : ℕ → ℚ) :
    ((l.zip ((List.range l.length).map f)).map (fun p => p.1 * p.2)).sum
      = ∑ i ∈ Finset.range l.length, l.getD i 0 * f i := by
  induction l generalizing f with
  | nil => simp
  | cons a t ih =>
    rw [List.length_cons, List.range_succ_eq_map, List.map_cons, List.map_map,
      List.zip_cons_cons, List.map_cons, List.sum_cons, ih (f ∘ Nat.succ),
      Finset.sum_range_succ']
    simp [Function.comp, add_comm]

/-- The window produced by one successful `get_cpu_percent` call agrees with
the spec's append-then-evict update whenever the window respects its
capacity bound. -/
lemma window_update_eq (hist : List ℚ) (r : ℚ) (h : hist.length ≤ 10) :
    (if 10 < (hist ++ [r]).length then (hist ++ [r]).tail else hist ++ [r])
      = specWindowUpdate hist r 10 := by
  unfold specWindowUpdate
  rcases eq_or_lt_of_le h with h10 | hlt
  · have hne : hist ≠ [] := by
      intro hnil
      rw [hnil] at h10
      simp at h10
    rw [if_pos (by simp [h10]), if_pos h10,
      List.tail_append_singleton_of_ne_nil hne]
  · rw [if_neg (by simp; omega), if_neg (by omega)]

/-- The quotient computed by `get_cpu_percent` is the spec's weighted moving
average of the updated window. -/
lemma code_wma_eq (l : List ℚ) :
    ((l.zip (weightList 10 l.length)).map (fun p => p.1 * p.2)).sum
        / (weightList 10 l.length).sum
      = specWMA l 10 := by
  have h1 : weightList 10 l.length
      = (List.range l.length).map (fun (i : ℕ) => 1 + (i : ℚ) / ((10 : ℕ) : ℚ)) := rfl
  rw [h1, zip_weight_sum l (fun (i : ℕ) => 1 + (i : ℚ) / ((10 : ℕ) : ℚ)),
    sum_map_range l.length (fun (i : ℕ) => 1 + (i : ℚ) / ((10 : ℕ) : ℚ))]
  rfl

/-- The clamp `max(0, min(100, ·))` lands in `[0, 100]`. -/
lemma clamp_bounds (x : ℚ) : 0 ≤ max 0 (min 100 x) ∧ max 0 (min 100 x) ≤ 100 :=
  ⟨le_max_left 0 _, max_le (by norm_num) (min_le_left 100 x)⟩

/-- Rounding to one decimal place preserves the band `[0, 100]`. -/
lemma roundTo1_bounds (x : ℚ) (h0 : 0 ≤ x) (h100 : x ≤ 100) :
    0 ≤ roundTo1 x ∧ roundTo1 x ≤ 100 := by
  unfold roundTo1
  rw [round_eq]
  constructor
  · apply div_nonneg _ (by norm_num)
    have h : (0 : ℤ) ≤ ⌊10 * x + 1 / 2⌋ := by
      apply Int.le_floor.mpr
      push_cast
      linarith
    exact_mod_cast h
  · rw [div_le_iff₀ (by norm_num)]
    have h : ⌊10 * x + 1 / 2⌋ ≤ ⌊(2001 : ℚ) / 2⌋ :=
      Int.floor_le_floor (by linarith)
    have h2 : ⌊(2001 : ℚ) / 2⌋ = 1000 := by norm_num
    have h3 : ⌊10 * x + 1 / 2⌋ ≤ 1000 := by omega
    calc ((⌊10 * x + 1 / 2⌋ : ℤ) : ℚ) ≤ 1000 := by exact_mod_cast h3
      _ = 100 * 10 := by norm_num

/-- One call of `get_cpu_percent` keeps the stored smoothed value inside
`[0, 100]` (the failing branch keeps it, the successful branch clamps). -/
lemma current_cpu_bounds (m : CPUMonitor) (r : Option ℚ)
    (h0 : 0 ≤ m.current_cpu) (h1 : m.current_cpu ≤ 100) :
    0 ≤ (get_cpu_percent m r).1.current_cpu ∧
      (get_cpu_percent m r).1.current_cpu ≤ 100 := by
  cases r with
  | none => exact ⟨h0, h1⟩
  | some v => exact clamp_bounds _

/-- One call of `get_cpu_percent` returns a value inside `[0, 100]` provided
the stored smoothed value is. -/
lemma output_bounds (m : CPUMonitor) (r : Option ℚ)
    (h0 : 0 ≤ m.current_cpu) (h1 : m.current_cpu ≤ 100) :
    0 ≤ (get_cpu_percent m r).2 ∧ (get_cpu_percent m r).2 ≤ 100 := by
  cases r with
  | none => exact roundTo1_bounds _ h0 h1
  | some v => exact roundTo1_bounds _ (clamp_bounds _).1 (clamp_bounds _).2

/-- All outputs of a run of `get_cpu_percent` calls are in `[0, 100]`, for
any start state whose stored smoothed value is. -/
lemma outputs_in_range_aux (rs : List (Option ℚ)) :
    ∀ m : CPUMonitor, 0 ≤ m.current_cpu → m.current_cpu ≤ 100 →
      ∀ v ∈ runOutputs m rs, 0 ≤ v ∧ v ≤ 100 := by
  induction rs with
  | nil => intro m _ _ v hv; simp [runOutputs] at hv
  | cons r rest ih =>
    intro m h0 h1 v hv
    rw [runOutputs, List.mem_cons] at hv
    rcases hv with hv | hv
    · rw [hv]
      exact output_bounds m r h0 h1
    · exact ih (get_cpu_percent m r).1 (current_cpu_bounds m r h0 h1).1
        (current_cpu_bounds m r h0 h1).2 v hv

end SamplerLemmas

/-- C5: on a successful read, one sampling step updates the window by the
spec's append-then-evict rule and returns the spec's weighted moving
average of the updated window (weight `1 + i/K`, `K = 10`, oldest = 0),
clamped to `[0, 100]` and rounded to one decimal place.  The hypotheses are
the monitor's construction-time invariants: buffer size `10` and a window
within capacity. -/
theorem sample_step_spec (m : CPUMonitor) (r : ℚ)
    (hb : m.buffer_size = 10) (hl : m.cpu_history.length ≤ 10) :
    (get_cpu_percent m (some r)).1.cpu_history = specWindowUpdate m.cpu_history r 10 ∧
    (get_cpu_percent m (some r)).2
      = roundTo1 (max 0 (min 100 (specWMA (specWindowUpdate m.cpu_history r 10) 10))) := by
  refine ⟨?_, ?_⟩
  · show (if m.buffer_size < (m.cpu_history ++ [r]).length
        then (m.cpu_history ++ [r]).tail else m.cpu_history ++ [r])
      = specWindowUpdate m.cpu_history r 10
    rw [hb]
    exact window_update_eq m.cpu_history r hl
  · show roundTo1 (max 0 (min 100
        ((((if m.buffer_size < (m.cpu_history ++ [r]).length
            then (m.cpu_history ++ [r]).tail else m.cpu_history ++ [r]).zip
          (weightList m.buffer_size (if m.buffer_size < (m.cpu_history ++ [r]).length
            then (m.cpu_history ++ [r]).tail else m.cpu_history ++ [r]).length)).map
          (fun p => p.1 * p.2)).sum
        / (weightList m.buffer_size (if m.buffer_size < (m.cpu_history ++ [r]).length
            then (m.cpu_history ++ [r]).tail else m.cpu_history ++ [r]).length).sum)))
      = roundTo1 (max 0 (min 100 (specWMA (specWindowUpdate m.cpu_history r 10) 10)))
    rw [hb, window_update_eq m.cpu_history r hl, code_wma_eq]

/-- Witness for C5: a concrete monitor with a two-entry window and buffer
size 10, receiving the raw reading 30. -/
theorem sample_step_spec_witness :
    (get_cpu_percent ⟨50, [10, 20], 10⟩ (some 30)).1.cpu_history
        = specWindowUpdate [10, 20] 30 10 ∧
    (get_cpu_percent ⟨50, [10, 20], 10⟩ (some 30)).2
        = roundTo1 (max 0 (min 100 (specWMA (specWindowUpdate [10, 20] 30 10) 10))) :=
  sample_step_spec ⟨50, [10, 20], 10⟩ 30 rfl (by norm_num)

/-- C6: starting from the freshly constructed monitor, every value returned
by any sequence of sampling calls — successful reads of arbitrary raw
values interleaved with read failures — lies within `[0, 100]`. -/
theorem outputs_in_range (rs : List (Option ℚ)) (v : ℚ)
    (hv : v ∈ runOutputs CPUMonitor.init rs) : 0 ≤ v ∧ v ≤ 100 :=
  outputs_in_range_aux rs CPUMonitor.init
    (by norm_num [CPUMonitor.init]) (by norm_num [CPUMonitor.init]) v hv

/-- Witness for C6: the single successful reading 50 produces the output 50,
which lies within the band. -/
theorem outputs_in_range_witness :
    (50 : ℚ) ∈ runOutputs CPUMonitor.init [some 50] ∧
      0 ≤ (50 : ℚ) ∧ (50 : ℚ) ≤ 100 :=
  have hmem : (50 : ℚ) ∈ runOutputs CPUMonitor.init [some 50] := by
    simp [runOutputs, get_cpu_percent, CPUMonitor.init, weightList, roundTo1,
      List.range_succ]
    norm_num [round_eq]
  ⟨hmem, outputs_in_range [some 50] 50 hmem⟩

/-- C7: when the OS read fails, `get_cpu_percent` returns the previously
computed smoothed value — the same value the previous call returned,
whether that call succeeded or failed — and, the embedded function being
total, the error is swallowed rather than propagated. -/
theorem failed_read_returns_previous (m : CPUMonitor) (r : Option ℚ) :
    (get_cpu_percent m none).2 = roundTo1 m.current_cpu ∧
    (get_cpu_percent (get_cpu_percent m r).1 none).2 = (get_cpu_percent m r).2 := by
  refine ⟨rfl, ?_⟩
  cases r with
  | none => rfl
  | some v => rfl

/-- C10: a failing sampling call leaves the whole monitor state unchanged —
in particular nothing is appended to the window and the stored smoothed
value is untouched — so two consecutive failing calls return equal values. -/
theorem failed_read_state_unchanged (m : CPUMonitor) :
    (get_cpu_percent m none).1 = m ∧
    (get_cpu_percent m none).1.cpu_history = m.cpu_history ∧
    (get_cpu_percent m none).1.current_cpu = m.current_cpu ∧
    (get_cpu_percent (get_cpu_percent m none).1 none).2 = (get_cpu_percent m none).2 :=
  ⟨rfl, rfl, rfl, rfl⟩

/-- C4 counterexample: with the code's weights `1 + i/10`, the most recent
entry of a full window of length 10 has weight `19/10`, which is not twice
the least recent entry's weight `1`. -/
theorem weight_ratio_counterexample :
    ¬ ((weightList 10 10).getLast?.getD 0 = 2 * ((weightList 10 10).head?.getD 0)) := by
  have hl : (weightList 10 10).getLast?.getD 0 = 19 / 10 := by
    simp [weightList, List.range_succ]
    norm_num
  have hh : (weightList 10 10).head?.getD 0 = 1 := by
    simp [weightList, List.range_succ]
  rw [hl, hh]
  norm_num

/-- C4 (amended): for a full smoothing window of length `K = 10`, the weight
of the most recent reading is `1 + (K-1)/K = 19/10` and the weight of the
least recent reading is `1 + 0/K = 1`, so the ratio is `19/10`, not `2`. -/
theorem weight_ratio :
    (weightList 10 10).getLast?.getD 0 = 1 + (9 : ℚ) / 10 ∧
    (weightList 10 10).head?.getD 0 = 1 + (0 : ℚ) / 10 ∧
    (weightList 10 10).getLast?.getD 0
      = (19 / 10) * ((weightList 10 10).head?.getD 0) := by
  refine ⟨?_, ?_, ?_⟩
  · simp [weightList, List.range_succ]
  · simp [weightList, List.range_succ]
  · simp [weightList, List.range_succ]
    norm_num

section BroadcastLemmas

/-- Membership in the registry after a `discard`. -/
lemma mem_ws_discard (regs : List Subscriber) (ws w : Subscriber) :
    w ∈ ws_discard regs ws ↔ w ∈ regs ∧ w ≠ ws := by
  simp [ws_discard]

/-- The delivery list of the broadcast loop: exactly the snapshot entries
that are open and whose send succeeds, independent of the live set. -/
lemma broadcastLoop_delivered (clients : List Subscriber) :
    ∀ regs, (broadcastLoop regs clients).2
      = clients.filter (fun ws => !ws.closed && ws.sendOk) := by
  induction clients with
  | nil => intro regs; rfl
  | cons a rest ih =>
    intro regs
    by_cases hc : a.closed = true
    · simp [broadcastLoop, hc, ih]
    · by_cases hs : a.sendOk = true
      · simp [broadcastLoop, hc, hs, ih]
      · simp [broadcastLoop, hc, hs, ih]

/-- The live set after the broadcast loop: a handle survives iff it was
registered and is not a failing snapshot entry (open but with a failing
send). -/
lemma broadcastLoop_registered (clients : List Subscriber) :
    ∀ regs w, w ∈ (broadcastLoop regs clients).1
      ↔ w ∈ regs ∧ ¬(w ∈ clients ∧ w.closed = false ∧ w.sendOk = false) := by
  induction clients with
  | nil => intro regs w; simp [broadcastLoop]
  | cons a rest ih =>
    intro regs w
    by_cases hc : a.closed = true
    · have hr : broadcastLoop regs (a :: rest) = broadcastLoop regs rest := by
        simp [broadcastLoop, hc]
      rw [hr, ih]
      constructor
      · rintro ⟨hreg, hn⟩
        refine ⟨hreg, ?_⟩
        rintro ⟨hm, hf⟩
        rcases List.mem_cons.mp hm with rfl | hm
        · rw [hc] at hf; exact absurd hf.1 (by simp)
        · exact hn ⟨hm, hf⟩
      · rintro ⟨hreg, hn⟩
        exact ⟨hreg, fun hx => hn ⟨List.mem_cons_of_mem a hx.1, hx.2⟩⟩
    · have hcf : a.closed = false := by simpa using hc
      by_cases hs : a.sendOk = true
      · have hr : (broadcastLoop regs (a :: rest)).1 = (broadcastLoop regs rest).1 := by
          simp [broadcastLoop, hcf, hs]
        rw [hr, ih]
        constructor
        · rintro ⟨hreg, hn⟩
          refine ⟨hreg, ?_⟩
          rintro ⟨hm, hf⟩
          rcases List.mem_cons.mp hm with rfl | hm
          · rw [hs] at hf; exact absurd hf.2 (by simp)
          · exact hn ⟨hm, hf⟩
        · rintro ⟨hreg, hn⟩
          exact ⟨hreg, fun hx => hn ⟨List.mem_cons_of_mem a hx.1, hx.2⟩⟩
      · have hsf : a.sendOk = false := by simpa using hs
        have hr : broadcastLoop regs (a :: rest)
            = broadcastLoop (ws_discard regs a) rest := by
          simp [broadcastLoop, hcf, hsf]
        rw [hr, ih, mem_ws_discard]
        rcases eq_or_ne w a with rfl | hne
        · simp [hcf, hsf]
        · simp only [List.mem_cons]
          constructor
          · rintro ⟨⟨hreg, _⟩, hn⟩
            refine ⟨hreg, ?_⟩
            rintro ⟨hm, hf⟩
            rcases hm with rfl | hm
            · exact hne rfl
            · exact hn ⟨hm, hf⟩
          · rintro ⟨hreg, hn⟩
            exact ⟨⟨hreg, hne⟩, fun hx => hn ⟨Or.inr hx.1, hx.2⟩⟩

end BroadcastLemmas

/-- C1: `broadcast_event` delivers the event to every registered live
subscriber (open connection, successful send); a subscriber whose send
raises is removed from the registry as a side effect and delivery to the
others still happens; the embedded function is total, so no failure reaches
the caller; and broadcasting with an empty registry is a state-preserving
no-op. -/
theorem broadcast_delivers (regs : List Subscriber) :
    (∀ ws ∈ regs, ws.closed = false → ws.sendOk = true →
        ws ∈ (broadcast_event regs).2) ∧
    (∀ ws ∈ regs, ws.closed = false → ws.sendOk = false →
        ws ∉ (broadcast_event regs).1 ∧ ws ∉ (broadcast_event regs).2) ∧
    (∀ ws ∈ regs, (ws.closed = true ∨ ws.sendOk = true) →
        ws ∈ (broadcast_event regs).1) ∧
    broadcast_event [] = ([], []) := by
  refine ⟨?_, ?_, ?_, rfl⟩
  · intro ws hm hcf hst
    rcases regs with _ | ⟨a, rest⟩
    · simp at hm
    · have hr : broadcast_event (a :: rest) = broadcastLoop (a :: rest) (a :: rest) := by
        simp [broadcast_event]
      rw [hr, broadcastLoop_delivered, List.mem_filter]
      exact ⟨hm, by simp [hcf, hst]⟩
  · intro ws hm hcf hsf
    rcases regs with _ | ⟨a, rest⟩
    · simp at hm
    · have hr : broadcast_event (a :: rest) = broadcastLoop (a :: rest) (a :: rest) := by
        simp [broadcast_event]
      constructor
      · rw [hr, broadcastLoop_registered]
        rintro ⟨_, hn⟩
        exact hn ⟨hm, hcf, hsf⟩
      · rw [hr, broadcastLoop_delivered, List.mem_filter]
        rintro ⟨_, hx⟩
        rw [hcf, hsf] at hx
        simp at hx
  · intro ws hm hlive
    rcases regs with _ | ⟨a, rest⟩
    · simp at hm
    · have hr : broadcast_event (a :: rest) = broadcastLoop (a :: rest) (a :: rest) := by
        simp [broadcast_event]
      rw [hr, broadcastLoop_registered]
      refine ⟨hm, ?_⟩
      rintro ⟨_, hcf, hsf⟩
      rcases hlive with hcl | hst
      · rw [hcl] at hcf; exact absurd hcf (by simp)
      · rw [hst] at hsf; exact absurd hsf (by simp)

/-- Witness for C1: three registered open subscribers where the middle one's
send fails — the two live ones receive the event, the failing one is
unregistered and receives nothing. -/
theorem broadcast_delivers_witness :
    (⟨1, false, true⟩ : Subscriber)
        ∈ (broadcast_event [⟨1, false, true⟩, ⟨2, false, false⟩, ⟨3, false, true⟩]).2 ∧
    ((⟨2, false, false⟩ : Subscriber)
        ∉ (broadcast_event [⟨1, false, true⟩, ⟨2, false, false⟩, ⟨3, false, true⟩]).1 ∧
      (⟨2, false, false⟩ : Subscriber)
        ∉ (broadcast_event [⟨1, false, true⟩, ⟨2, false, false⟩, ⟨3, false, true⟩]).2) ∧
    (⟨3, false, true⟩ : Subscriber)
        ∈ (broadcast_event [⟨1, false, true⟩, ⟨2, false, false⟩, ⟨3, false, true⟩]).2 :=
  ⟨(broadcast_delivers _).1 _ (by decide) rfl rfl,
    (broadcast_delivers _).2.1 _ (by decide) rfl rfl,
    (broadcast_delivers _).1 _ (by decide) rfl rfl⟩

/-- C2 counterexample: a tick in which the connection is open, the push
would succeed, the memory read succeeds and the sampler's own read
succeeds, but the single per-core read fails, already terminates the
session — one isolated read error, not two in direct succession. -/
theorem session_single_read_error_exits :
    (runSession CPUMonitor.init [⟨false, some 50, false, true, true⟩]).2
        = ExitReason.tickError ∧
    (⟨false, some 50, false, true, true⟩ : TickEnv).closedAtTop = false ∧
    (⟨false, some 50, false, true, true⟩ : TickEnv).pushOk = true ∧
    (⟨false, some 50, false, true, true⟩ : TickEnv).memOk = true ∧
    (⟨false, some 50, false, true, true⟩ : TickEnv).mainRead ≠ none :=
  ⟨rfl, rfl, rfl, rfl, by simp⟩

/-- C2 (amended): the streaming loop exits to its terminal state exactly on
an observed close, or on a single failure of a loop-body operation (the
per-core read, the memory read or the push); failures of the sampler's own
utilization read — even repeated ones — never terminate the session. -/
theorem session_exit_reasons (m : CPUMonitor) (envs : List TickEnv) :
    ((runSession m envs).2 = ExitReason.tickError →
      ∃ e ∈ envs, e.closedAtTop = false ∧
        (e.perCpuOk = false ∨ e.memOk = false ∨ e.pushOk = false)) ∧
    ((runSession m envs).2 = ExitReason.observedClosed →
      ∃ e ∈ envs, e.closedAtTop = true) ∧
    ((∀ e ∈ envs, e.closedAtTop = false ∧ e.perCpuOk = true ∧
        e.memOk = true ∧ e.pushOk = true) →
      (runSession m envs).2 = ExitReason.ranOut) := by
  induction envs generalizing m with
  | nil =>
    refine ⟨?_, ?_, ?_⟩
    · intro h; simp [runSession] at h
    · intro h; simp [runSession] at h
    · intro _; rfl
  | cons e rest ih =>
    by_cases hc : e.closedAtTop = true
    · have hr : runSession m (e :: rest) = (m, ExitReason.observedClosed) := by
        simp [runSession, hc]
      refine ⟨?_, ?_, ?_⟩
      · rw [hr]; intro h; simp at h
      · intro _; exact ⟨e, List.mem_cons_self e rest, hc⟩
      · intro hall
        exact absurd (hall e (List.mem_cons_self e rest)).1 (by simp [hc])
    · have hcf : e.closedAtTop = false := by simpa using hc
      by_cases hok : (e.perCpuOk && e.memOk && e.pushOk) = true
      · have hr : runSession m (e :: rest)
            = runSession (get_cpu_percent m e.mainRead).1 rest := by
          simp [runSession, hcf, hok]
        refine ⟨?_, ?_, ?_⟩
        · rw [hr]; intro h
          obtain ⟨e', he', hp⟩ := (ih _).1 h
          exact ⟨e', List.mem_cons_of_mem e he', hp⟩
        · rw [hr]; intro h
          obtain ⟨e', he', hp⟩ := (ih _).2.1 h
          exact ⟨e', List.mem_cons_of_mem e he', hp⟩
        · intro hall
          rw [hr]
          exact (ih _).2.2 (fun e' he' => hall e' (List.mem_cons_of_mem e he'))
      · have hr : runSession m (e :: rest)
            = ((get_cpu_percent m e.mainRead).1, ExitReason.tickError) := by
          simp [runSession, hcf, hok]
        refine ⟨?_, ?_, ?_⟩
        · intro _
          refine ⟨e, List.mem_cons_self e rest, hcf, ?_⟩
          revert hok
          cases hpc : e.perCpuOk <;> cases hm2 : e.memOk <;>
            cases hp2 : e.pushOk <;> simp
        · rw [hr]; intro h; simp at h
        · intro hall
          obtain ⟨_, h1, h2, h3⟩ := hall e (List.mem_cons_self e rest)
          exact absurd (by simp [h1, h2, h3]) hok

/-- Witness for C2 (amended): a tick whose sampler read fails but whose
loop-body operations all succeed does not terminate the session. -/
theorem session_exit_reasons_witness :
    (runSession CPUMonitor.init [⟨false, none, true, true, true⟩]).2
      = ExitReason.ranOut :=
  (session_exit_reasons CPUMonitor.init [⟨false, none, true, true, true⟩]).2.2
    (by decide)

/-- C8: whatever trace the streaming loop runs — observed close, loop-body
failure, or exhaustion — `cpu_websocket_handler` always reaches its single
`finally` unregister site, so the connection's handle is not registered
after the session ends; and a handle that was not registered beforehand
leaves the registry exactly as it was. -/
theorem session_unregisters (regs : List Subscriber) (ws : Subscriber)
    (m : CPUMonitor) (envs : List TickEnv) :
    ws ∉ (cpu_websocket_handler regs ws m envs).1 ∧
    (ws ∉ regs → (cpu_websocket_handler regs ws m envs).1 = regs) := by
  constructor
  · simp [cpu_websocket_handler, ws_discard, List.mem_filter]
  · intro h
    have ha : ws_add regs ws = ws :: regs := by
      simp [ws_add, h]
    show ws_discard (ws_add regs ws) ws = regs
    rw [ha]
    simp only [ws_discard, List.filter_cons]
    rw [if_neg (by simp)]
    rw [List.filter_eq_self]
    intro a ha2
    simp only [decide_eq_true_eq]
    rintro rfl
    exact h ha2

/-- Witness for C8: a fresh handle streaming over an empty trace against a
one-element registry is gone afterwards and the registry is restored. -/
theorem session_unregisters_witness :
    (⟨2, false, true⟩ : Subscriber)
        ∉ (cpu_websocket_handler [⟨1, false, true⟩] ⟨2, false, true⟩
            CPUMonitor.init []).1 ∧
    (cpu_websocket_handler [⟨1, false, true⟩] ⟨2, false, true⟩
        CPUMonitor.init []).1 = [⟨1, false, true⟩] :=
  ⟨(session_unregisters [⟨1, false, true⟩] ⟨2, false, true⟩ CPUMonitor.init []).1,
    (session_unregisters [⟨1, false, true⟩] ⟨2, false, true⟩ CPUMonitor.init []).2
      (by decide)⟩

/-- C3: starting from an inactive state, `start_workload_handler` starts the
workload, and when the workload runs to natural completion (its bounded
step list is exhausted) the active flag is reset, so a later status query
reports inactive and a later start succeeds again. -/
theorem workload_completion_resets (s : ServerState) (notes : List ℕ)
    (h : s.workload_active = false) :
    (start_workload_handler s).2 = Response.ok startedMsg ∧
    workload_status_handler (play_twinkle_twinkle notes (start_workload_handler s).1)
      = false ∧
    (start_workload_handler
        (play_twinkle_twinkle notes (start_workload_handler s).1)).2
      = Response.ok startedMsg ∧
    (start_workload_handler
        (play_twinkle_twinkle notes (start_workload_handler s).1)).1.workload_active
      = true := by
  simp [start_workload_handler, play_twinkle_twinkle, workload_status_handler, h]

/-- Witness for C3: the idle initial state running a three-note workload. -/
theorem workload_completion_resets_witness :
    (start_workload_handler ⟨false, 0, []⟩).2 = Response.ok startedMsg ∧
    workload_status_handler
        (play_twinkle_twinkle [0, 1, 2] (start_workload_handler ⟨false, 0, []⟩).1)
      = false ∧
    (start_workload_handler
        (play_twinkle_twinkle [0, 1, 2] (start_workload_handler ⟨false, 0, []⟩).1)).2
      = Response.ok startedMsg ∧
    (start_workload_handler
        (play_twinkle_twinkle [0, 1, 2]
          (start_workload_handler ⟨false, 0, []⟩).1)).1.workload_active
      = true :=
  workload_completion_resets ⟨false, 0, []⟩ [0, 1, 2] rfl

/-- C9: a start request while the active flag is set returns the 400
conflict response and changes nothing — the flag stays set and no further
background unit is spawned; a start request while the flag is clear sets the
flag, spawns exactly one background unit and returns the 200 status
response. -/
theorem start_workload_conflict (s : ServerState) :
    (s.workload_active = true →
      start_workload_handler s = (s, Response.clientError conflictMsg)) ∧
    (s.workload_active = false →
      (start_workload_handler s).1.workload_active = true ∧
      (start_workload_handler s).1.spawned = s.spawned + 1 ∧
      (start_workload_handler s).2 = Response.ok startedMsg) := by
  constructor
  · intro h
    simp [start_workload_handler, h]
  · intro h
    simp [start_workload_handler, h]

/-- Witness for C9: a conflict on an active state and a successful start on
an idle state. -/
theorem start_workload_conflict_witness :
    start_workload_handler ⟨true, 3, []⟩
        = (⟨true, 3, []⟩, Response.clientError conflictMsg) ∧
    ((start_workload_handler ⟨false, 0, []⟩).1.workload_active = true ∧
      (start_workload_handler ⟨false, 0, []⟩).1.spawned = 0 + 1 ∧
      (start_workload_handler ⟨false, 0, []⟩).2 = Response.ok startedMsg) :=
  ⟨(start_workload_conflict ⟨true, 3, []⟩).1 rfl,
    (start_workload_conflict ⟨false, 0, []⟩).2 rfl⟩

end CpuServer
